import Mathlib

/-!
Shallow embedding of the join-strategy selection stage of
`src/execution/physical_plan/plan_comparison_join.cpp`:
`can_plan_index_join`, `TransformIndexJoin` and
`PhysicalPlanGenerator::CreatePlan(LogicalComparisonJoin&)`,
together with the parts of the data model they touch
(join conditions, table scans, indexes, transaction-local storage).

Modelling choices:
- `idx_t` cardinalities are `Nat`; the C++ test
  `rhs_cardinality < 0.01 * lhs_cardinality` (an exact 1%-ratio test
  evaluated in `double`) is embedded as the exact rational comparison
  `100 * rhs_cardinality < lhs_cardinality`.
- `assert(...)` failures abort plan construction, so the planner is
  embedded as returning `Except PlanError PhysicalOperator` and a failed
  assertion yields `.error .assertionFailure`.
- An already-lowered child subplan is a `PhysicalOperator`; a child that
  is not a table scan is abstracted as `PhysicalOperator.other`.
- The C++ field `Expression::alias` is named `alias_name` here because
  `alias` is a reserved word in Lean.
-/

namespace duckdb

/-- Comparison operator of a join condition (`ExpressionType` in the source,
restricted to the comparison values this file inspects). -/
inductive ExpressionType where
  | COMPARE_EQUAL
  | COMPARE_NOTEQUAL
  | COMPARE_LESSTHAN
  | COMPARE_GREATERTHAN
  | COMPARE_LESSTHANOREQUALTO
  | COMPARE_GREATERTHANOREQUALTO
  deriving DecidableEq, Repr

/-- Join kind of a logical comparison join (`JoinType` in the source). -/
inductive JoinType where
  | INNER
  | LEFT
  | RIGHT
  | OUTER
  | SEMI
  | ANTI
  | MARK
  | SINGLE
  deriving DecidableEq, Repr

/-- A (bound or unbound) column expression: the alias string the index
search compares, plus a non-alias column identity (`binding`) that the
search never looks at. -/
structure Expression where
  alias_name : String
  binding : Nat
  deriving DecidableEq, Repr

/-- One join condition: left/right operand expressions, comparison
operator and the `null_values_are_equal` flag. -/
structure JoinCondition where
  left : Expression
  right : Expression
  comparison : ExpressionType
  null_values_are_equal : Bool
  deriving DecidableEq, Repr

/-- One secondary index: its `unbound_expressions` list of bound column
expressions (`unbound_expressions[0]` is the first indexed column). -/
structure Index where
  name : String
  unbound_expressions : List Expression
  deriving DecidableEq, Repr

/-- `index->unbound_expressions[0]->alias`: alias of the first indexed
column. -/
def Index.firstColAlias (ix : Index) : String :=
  match ix.unbound_expressions with
  | [] => ""
  | e :: _ => e.alias_name

/-- `table->storage->info`: carries the live index list. -/
structure DataTableInfo where
  indexes : List Index
  deriving DecidableEq, Repr

/-- A table: identity of its storage (used by the transaction-local
storage lookup) and its info block. -/
structure DataTable where
  storage_id : Nat
  info : DataTableInfo
  deriving DecidableEq, Repr

/-- `TableScanBindData`: bind data of a plain table-scan function. -/
structure TableScanBindData where
  table : DataTable
  deriving DecidableEq, Repr

/-- The active transaction: the set of storages that hold uncommitted
transaction-local appends. -/
structure Transaction where
  local_storage : List Nat
  deriving DecidableEq, Repr

/-- `transaction.storage.Find(table->storage.get())`: whether the table's
storage has transaction-local appends. -/
def Transaction.storageFind (t : Transaction) (sid : Nat) : Bool :=
  t.local_storage.contains sid

/-- The client context, restricted to the knob the selector reads. -/
structure ClientContext where
  force_index_join : Bool
  deriving DecidableEq, Repr

/-- The logical comparison join node (children and their cardinalities are
passed separately, as the source reads them before lowering). -/
structure LogicalComparisonJoin where
  join_type : JoinType
  conditions : List JoinCondition
  left_projection_map : List Nat
  right_projection_map : List Nat
  deriving DecidableEq, Repr

/-- Physical operators: the lowered child subplans consumed by the
selector and the join operators it can produce. In `indexJoin` the child
and projection-map slots are in C++ constructor-argument order and the
final `Bool` is the `lhs_first` flag (`false` when the left table's index
is probed, `true` when the right table's index is probed). -/
inductive PhysicalOperator where
  | tableScan (bind_data : Option TableScanBindData) (table_filters : List Nat)
      (column_ids : List Nat)
  | crossProduct (left right : PhysicalOperator)
  | hashJoin (left right : PhysicalOperator) (conditions : List JoinCondition)
      (join_type : JoinType) (left_projection_map right_projection_map : List Nat)
  | indexJoin (first second : PhysicalOperator) (conditions : List JoinCondition)
      (join_type : JoinType) (first_projection_map second_projection_map : List Nat)
      (column_ids : List Nat) (index : Index) (lhs_first : Bool)
  | piecewiseMergeJoin (left right : PhysicalOperator) (conditions : List JoinCondition)
      (join_type : JoinType)
  | nestedLoopJoin (left right : PhysicalOperator) (conditions : List JoinCondition)
      (join_type : JoinType)
  | other (tag : Nat)
  deriving DecidableEq, Repr

/-- `tbl_scan.column_ids` of a table scan (junk `[]` on non-scans; only
read where the source has already established the scan shape). -/
def PhysicalOperator.scanColumnIds : PhysicalOperator → List Nat
  | .tableScan _ _ column_ids => column_ids
  | _ => []

/-- Fatal plan-construction failures (failed `assert`). -/
inductive PlanError where
  | assertionFailure
  deriving DecidableEq, Repr

/-- `can_plan_index_join`: the bind data must be a table scan's, the
table must have no transaction-local appends, and the scan must carry no
table filters. -/
def can_plan_index_join (transaction : Transaction)
    (bind_data : Option TableScanBindData) (table_filters : List Nat) : Bool :=
  match bind_data with
  | none =>
    -- not a table scan
    false
  | some bd =>
    if transaction.storageFind bd.table.storage_id then
      -- transaction local appends: skip index join
      false
    else if table_filters.length > 0 then
      -- table scan filters
      false
    else
      true

/-- The `for (auto &index : ...indexes) { if (...alias == ...) { ...; break; } }`
loop: first index whose first bound column's alias equals `a`. -/
def findMatchingIndex (indexes : List Index) (a : String) : Option Index :=
  match indexes with
  | [] => none
  | ix :: rest =>
    if ix.firstColAlias == a then some ix else findMatchingIndex rest a

/-- One side of `TransformIndexJoin`: if the child is a table scan whose
bind data passes `can_plan_index_join`, search its table's index list for
the alias of this side's operand. -/
def scanSideIndex (transaction : Transaction) (plan : PhysicalOperator)
    (a : String) : Option Index :=
  match plan with
  | .tableScan bind_data table_filters _ =>
    if can_plan_index_join transaction bind_data table_filters then
      match bind_data with
      | some tbl => findMatchingIndex tbl.table.info.indexes a
      | none => none
    else
      none
  | _ => none

/-- `TransformIndexJoin`: for an inner join with exactly one condition,
look for an index on the left child keyed by the condition's left
operand alias, and on the right child keyed by the right operand alias. -/
def TransformIndexJoin (transaction : Transaction) (op : LogicalComparisonJoin)
    (left right : PhysicalOperator) : Option Index × Option Index :=
  match op.conditions with
  | [c] =>
    if op.join_type == JoinType.INNER then
      (scanSideIndex transaction left c.left.alias_name,
       scanSideIndex transaction right c.right.alias_name)
    else
      (none, none)
  | _ => (none, none)

/-- `swap(op.conditions[0].left, op.conditions[0].right)`: swap the
operand expressions of the first condition, keeping comparison and flag. -/
def swapFirstCondition : List JoinCondition → List JoinCondition
  | [] => []
  | c :: rest => { c with left := c.right, right := c.left } :: rest

/-- `PhysicalPlanGenerator::CreatePlan(LogicalComparisonJoin&)`, taking
the node, the two pre-computed child cardinality estimates and the two
already-lowered child subplans. -/
def CreatePlan (context : ClientContext) (transaction : Transaction)
    (op : LogicalComparisonJoin) (lhs_cardinality rhs_cardinality : Nat)
    (left right : PhysicalOperator) : Except PlanError PhysicalOperator :=
  if op.conditions.length == 0 then
    -- no conditions: insert a cross product
    .ok (.crossProduct left right)
  else if op.conditions.any
      (fun c => c.null_values_are_equal
        && !(c.comparison == ExpressionType.COMPARE_EQUAL)) then
    -- assert(cond.comparison == ExpressionType::COMPARE_EQUAL)
    .error .assertionFailure
  else
    let has_equality :=
      op.conditions.any (fun c => c.comparison == ExpressionType.COMPARE_EQUAL)
    let has_inequality :=
      op.conditions.any (fun c => c.comparison == ExpressionType.COMPARE_NOTEQUAL)
    if has_equality then
      let indexes := TransformIndexJoin transaction op left right
      match indexes.1,
          context.force_index_join
            || decide (100 * rhs_cardinality < lhs_cardinality) with
      | some left_index, true =>
        .ok (.indexJoin right left (swapFirstCondition op.conditions) op.join_type
          op.right_projection_map op.left_projection_map left.scanColumnIds
          left_index false)
      | _, _ =>
        match indexes.2,
            context.force_index_join
              || decide (100 * lhs_cardinality < rhs_cardinality) with
        | some right_index, true =>
          .ok (.indexJoin left right op.conditions op.join_type
            op.left_projection_map op.right_projection_map right.scanColumnIds
            right_index true)
        | _, _ =>
          -- equality join: use hash join
          .ok (.hashJoin left right op.conditions op.join_type
            op.left_projection_map op.right_projection_map)
    else
      if op.conditions.length == 1 && !has_inequality then
        -- range join: use piecewise merge join
        .ok (.piecewiseMergeJoin left right op.conditions op.join_type)
      else
        -- inequality join: use nested loop
        .ok (.nestedLoopJoin left right op.conditions op.join_type)

/-! ### Observers on planner results -/

/-- The result is an index join probing the left table's index
(`lhs_first = false` in the source's constructor call). -/
def probesLeftIndex : Except PlanError PhysicalOperator → Bool
  | .ok (.indexJoin _ _ _ _ _ _ _ _ false) => true
  | _ => false

/-- The result is an index join probing the right table's index
(`lhs_first = true`). -/
def probesRightIndex : Except PlanError PhysicalOperator → Bool
  | .ok (.indexJoin _ _ _ _ _ _ _ _ true) => true
  | _ => false

/-- The result is a piecewise merge join. -/
def isMergeJoin : Except PlanError PhysicalOperator → Bool
  | .ok (.piecewiseMergeJoin _ _ _ _) => true
  | _ => false

/-- Condition list carried by a produced physical join operator. -/
def extractedConditions : PhysicalOperator → List JoinCondition
  | .tableScan _ _ _ => []
  | .crossProduct _ _ => []
  | .hashJoin _ _ conditions _ _ _ => conditions
  | .indexJoin _ _ conditions _ _ _ _ _ _ => conditions
  | .piecewiseMergeJoin _ _ conditions _ => conditions
  | .nestedLoopJoin _ _ conditions _ => conditions
  | .other _ => []

/-- Re-extract a produced operator's condition list and reverse the
documented operand swap, which is performed only in the left-side index
join case (`lhs_first = false`). -/
def reverseDocumentedSwap (p : PhysicalOperator) : List JoinCondition :=
  match p with
  | .indexJoin _ _ conditions _ _ _ _ _ false => swapFirstCondition conditions
  | _ => extractedConditions p

/-! ### Spec-side predicates

These follow the spec's words (for refinement comparison against the
source-derived definitions above), per §4.1/§8 of the spec. -/

/-- Spec-worded side eligibility, §4.1 items 1, 3, 4, 5: the side's
lowered plan is a bare table scan with zero residual filter predicates,
its table has no uncommitted transaction-local row storage, and the
table's live index list contains an index whose (first) bound column
alias matches this side's operand alias. -/
def specSideEligible (transaction : Transaction) (plan : PhysicalOperator)
    (a : String) : Bool :=
  match plan with
  | .tableScan (some bd) table_filters _ =>
    table_filters.isEmpty
      && !(transaction.storageFind bd.table.storage_id)
      && bd.table.info.indexes.any (fun ix => ix.firstColAlias == a)
  | _ => false

/-- Alias of the left operand of the node's first condition. -/
def headLeftAlias (op : LogicalComparisonJoin) : String :=
  match op.conditions with
  | c :: _ => c.left.alias_name
  | [] => ""

/-- Alias of the right operand of the node's first condition. -/
def headRightAlias (op : LogicalComparisonJoin) : String :=
  match op.conditions with
  | c :: _ => c.right.alias_name
  | [] => ""

/-- The claim's per-side production condition exactly as stated: exactly
one condition, it is an equality, the join is inner, the
`null_values_are_equal` flag is false, the side is eligible, and the
force flag is set or the opposite side's cardinality is strictly below
1% of the indexed side's cardinality. -/
def claimC2Conjuncts (context : ClientContext) (transaction : Transaction)
    (op : LogicalComparisonJoin) (indexedCard oppositeCard : Nat)
    (sidePlan : PhysicalOperator) (operandAlias : String) : Bool :=
  (op.conditions.length == 1)
    && op.conditions.all (fun c =>
        (c.comparison == ExpressionType.COMPARE_EQUAL) && !c.null_values_are_equal)
    && (op.join_type == JoinType.INNER)
    && specSideEligible transaction sidePlan operandAlias
    && (context.force_index_join || decide (100 * oppositeCard < indexedCard))

/-- Amended left-side production condition: as `claimC2Conjuncts` for the
left side, except that the `null_values_are_equal` flag is not consulted
(the source never checks it on the index path). -/
def amendedLeftFires (context : ClientContext) (transaction : Transaction)
    (op : LogicalComparisonJoin) (lhs_cardinality rhs_cardinality : Nat)
    (left : PhysicalOperator) : Bool :=
  (op.conditions.length == 1)
    && op.conditions.all (fun c => c.comparison == ExpressionType.COMPARE_EQUAL)
    && (op.join_type == JoinType.INNER)
    && specSideEligible transaction left (headLeftAlias op)
    && (context.force_index_join
        || decide (100 * rhs_cardinality < lhs_cardinality))

/-- Amended right-side production condition: symmetric to
`amendedLeftFires`, and additionally the left-side branch must not have
fired (the source checks the left side first and returns). -/
def amendedRightFires (context : ClientContext) (transaction : Transaction)
    (op : LogicalComparisonJoin) (lhs_cardinality rhs_cardinality : Nat)
    (left right : PhysicalOperator) : Bool :=
  (op.conditions.length == 1)
    && op.conditions.all (fun c => c.comparison == ExpressionType.COMPARE_EQUAL)
    && (op.join_type == JoinType.INNER)
    && specSideEligible transaction right (headRightAlias op)
    && (context.force_index_join
        || decide (100 * lhs_cardinality < rhs_cardinality))
    && !(amendedLeftFires context transaction op lhs_cardinality rhs_cardinality left)

/-! ### Concrete fixtures -/

/-- Column `A.x`. -/
def exprAx : Expression := { alias_name := "x", binding := 0 }

/-- Column `B.y`. -/
def exprBy : Expression := { alias_name := "y", binding := 1 }

/-- Index on `A.x`. -/
def idxAx : Index := { name := "idx_a_x", unbound_expressions := [exprAx] }

/-- Index on `B.y`. -/
def idxBy : Index := { name := "idx_b_y", unbound_expressions := [exprBy] }

/-- Table `A`, carrying `idxAx`. -/
def tableA : DataTable := { storage_id := 0, info := { indexes := [idxAx] } }

/-- Table `B`, carrying `idxBy`. -/
def tableB : DataTable := { storage_id := 1, info := { indexes := [idxBy] } }

/-- Filterless bare scan of `A`. -/
def scanA : PhysicalOperator := .tableScan (some { table := tableA }) [] [0, 1]

/-- Filterless bare scan of `B`. -/
def scanB : PhysicalOperator := .tableScan (some { table := tableB }) [] [0, 1]

/-- Transaction with no local storage. -/
def txnEmpty : Transaction := { local_storage := [] }

/-- Context with `force_index_join` set. -/
def ctxForce : ClientContext := { force_index_join := true }

/-- Context with `force_index_join` unset. -/
def ctxNoForce : ClientContext := { force_index_join := false }

/-- `A.x = B.y` with `null_values_are_equal = true`. -/
def condEqNullAware : JoinCondition :=
  { left := exprAx, right := exprBy, comparison := .COMPARE_EQUAL,
    null_values_are_equal := true }

/-- `A.x = B.y` with `null_values_are_equal = false`. -/
def condEqPlain : JoinCondition :=
  { left := exprAx, right := exprBy, comparison := .COMPARE_EQUAL,
    null_values_are_equal := false }

/-- `A.x <> B.y`. -/
def condNotEq : JoinCondition :=
  { left := exprAx, right := exprBy, comparison := .COMPARE_NOTEQUAL,
    null_values_are_equal := false }

/-- `A.x < B.y`. -/
def condLess : JoinCondition :=
  { left := exprAx, right := exprBy, comparison := .COMPARE_LESSTHAN,
    null_values_are_equal := false }

/-- Inner join on the single null-aware condition `A.x = B.y`. -/
def opNullAwareEq : LogicalComparisonJoin :=
  { join_type := .INNER, conditions := [condEqNullAware],
    left_projection_map := [0], right_projection_map := [1] }

/-- Inner join on the single plain condition `A.x = B.y`. -/
def opSingleEq : LogicalComparisonJoin :=
  { join_type := .INNER, conditions := [condEqPlain],
    left_projection_map := [0], right_projection_map := [1] }

/-- Inner join on the single condition `A.x <> B.y`. -/
def opNotEq : LogicalComparisonJoin :=
  { join_type := .INNER, conditions := [condNotEq],
    left_projection_map := [0], right_projection_map := [1] }

/-- Inner join on the single condition `A.x < B.y`. -/
def opLess : LogicalComparisonJoin :=
  { join_type := .INNER, conditions := [condLess],
    left_projection_map := [0], right_projection_map := [1] }

/-- `A.x < B.y` with `null_values_are_equal = true` (malformed: the flag
may legally accompany only an equality). -/
def condLessNullAware : JoinCondition :=
  { left := exprAx, right := exprBy, comparison := .COMPARE_LESSTHAN,
    null_values_are_equal := true }

/-- Inner join on the single malformed condition `condLessNullAware`. -/
def opLessNullAware : LogicalComparisonJoin :=
  { join_type := .INNER, conditions := [condLessNullAware],
    left_projection_map := [0], right_projection_map := [1] }

/-- Outer join with no conditions. -/
def opNoConds : LogicalComparisonJoin :=
  { join_type := .OUTER, conditions := [],
    left_projection_map := [0], right_projection_map := [1] }

/-- Index transformation that keeps only the first indexed column;
preserves `firstColAlias`, used to show later columns are never read. -/
def dropTailColumns (ix : Index) : Index :=
  { ix with unbound_expressions := ix.unbound_expressions.take 1 }

/-- A two-column index on `A.x` (second column differs from `idxAx`). -/
def idxAxz : Index :=
  { name := "idx_a_x_z",
    unbound_expressions := [exprAx, { alias_name := "z", binding := 2 }] }

/-! ### Helper lemmas -/

/-- The first-match loop is `List.find?` over the first-column alias. -/
theorem findMatchingIndex_eq_find (indexes : List Index) (a : String) :
    findMatchingIndex indexes a
      = indexes.find? (fun ix => ix.firstColAlias == a) := by
  induction indexes with
  | nil => rfl
  | cons ix rest ih =>
    rw [findMatchingIndex, List.find?]
    cases h : (ix.firstColAlias == a) with
    | true => simp [h]
    | false => simp [h, ih]

/-- The loop finds an index exactly when some index's first-column alias
matches. -/
theorem findMatchingIndex_isSome (indexes : List Index) (a : String) :
    (findMatchingIndex indexes a).isSome
      = indexes.any (fun ix => ix.firstColAlias == a) := by
  induction indexes with
  | nil => rfl
  | cons ix rest ih =>
    rw [findMatchingIndex, List.any_cons]
    cases h : (ix.firstColAlias == a) with
    | true => simp [h]
    | false => simp [h, ih]

/-- The source-derived side search succeeds exactly when the spec-worded
side eligibility holds. -/
theorem scanSideIndex_isSome (transaction : Transaction)
    (plan : PhysicalOperator) (a : String) :
    (scanSideIndex transaction plan a).isSome
      = specSideEligible transaction plan a := by
  cases plan with
  | tableScan bind_data table_filters column_ids =>
    cases bind_data with
    | none => rfl
    | some bd =>
      cases hf : table_filters with
      | nil =>
        cases hs : transaction.storageFind bd.table.storage_id with
        | true => simp [scanSideIndex, specSideEligible, can_plan_index_join, hs]
        | false =>
          simp [scanSideIndex, specSideEligible, can_plan_index_join, hs,
            findMatchingIndex_isSome]
      | cons f fs =>
        cases hs : transaction.storageFind bd.table.storage_id with
        | true => simp [scanSideIndex, specSideEligible, can_plan_index_join, hs]
        | false => simp [scanSideIndex, specSideEligible, can_plan_index_join, hs]
  | crossProduct l r => rfl
  | hashJoin l r c j lp rp => rfl
  | indexJoin f s c j fp sp ci ix b => rfl
  | piecewiseMergeJoin l r c j => rfl
  | nestedLoopJoin l r c j => rfl
  | other t => rfl

/-- Swapping the first condition's operands twice is the identity. -/
theorem swapFirstCondition_involutive (conditions : List JoinCondition) :
    swapFirstCondition (swapFirstCondition conditions) = conditions := by
  cases conditions with
  | nil => rfl
  | cons c rest => cases c; rfl

/-- Dropping an index's trailing columns preserves its first-column
alias. -/
theorem dropTailColumns_firstColAlias (ix : Index) :
    (dropTailColumns ix).firstColAlias = ix.firstColAlias := by
  cases h : ix.unbound_expressions with
  | nil => simp [dropTailColumns, Index.firstColAlias, h]
  | cons e es => simp [dropTailColumns, Index.firstColAlias, h]

/-- The planner yields an index join probing the left table's index
exactly when the amended left-side production condition holds. -/
theorem probesLeft_char (context : ClientContext) (transaction : Transaction)
    (op : LogicalComparisonJoin) (lhs_cardinality rhs_cardinality : Nat)
    (left right : PhysicalOperator) :
    probesLeftIndex
        (CreatePlan context transaction op lhs_cardinality rhs_cardinality left right)
      = amendedLeftFires context transaction op lhs_cardinality rhs_cardinality left := by
  rcases hconds : op.conditions with _ | ⟨c, _ | ⟨c2, rest⟩⟩
  · simp [CreatePlan, hconds, amendedLeftFires, probesLeftIndex]
  · by_cases hcmp : (c.comparison == ExpressionType.COMPARE_EQUAL) = true
    · by_cases hjt : (op.join_type == JoinType.INNER) = true
      · cases hli : scanSideIndex transaction left c.left.alias_name with
        | some ix =>
          cases htest : (context.force_index_join
              || decide (100 * rhs_cardinality < lhs_cardinality)) with
          | true =>
            simp [CreatePlan, TransformIndexJoin, hconds, hjt, hcmp, hli, htest,
              probesLeftIndex, amendedLeftFires, headLeftAlias,
              ← scanSideIndex_isSome]
          | false =>
            cases hri : scanSideIndex transaction right c.right.alias_name with
            | some iy =>
              cases htest2 : (context.force_index_join
                  || decide (100 * lhs_cardinality < rhs_cardinality)) with
              | true =>
                simp [CreatePlan, TransformIndexJoin, hconds, hjt, hcmp, hli, hri,
                  htest, htest2, probesLeftIndex, amendedLeftFires, headLeftAlias]
              | false =>
                simp [CreatePlan, TransformIndexJoin, hconds, hjt, hcmp, hli, hri,
                  htest, htest2, probesLeftIndex, amendedLeftFires, headLeftAlias]
            | none =>
              simp [CreatePlan, TransformIndexJoin, hconds, hjt, hcmp, hli, hri,
                htest, probesLeftIndex, amendedLeftFires, headLeftAlias]
        | none =>
          cases hri : scanSideIndex transaction right c.right.alias_name with
          | some iy =>
            cases htest2 : (context.force_index_join
                || decide (100 * lhs_cardinality < rhs_cardinality)) with
            | true =>
              simp [CreatePlan, TransformIndexJoin, hconds, hjt, hcmp, hli, hri,
                htest2, probesLeftIndex, amendedLeftFires, headLeftAlias,
                ← scanSideIndex_isSome]
            | false =>
              simp [CreatePlan, TransformIndexJoin, hconds, hjt, hcmp, hli, hri,
                htest2, probesLeftIndex, amendedLeftFires, headLeftAlias,
                ← scanSideIndex_isSome]
          | none =>
            simp [CreatePlan, TransformIndexJoin, hconds, hjt, hcmp, hli, hri,
              probesLeftIndex, amendedLeftFires, headLeftAlias,
              ← scanSideIndex_isSome]
      · simp [CreatePlan, TransformIndexJoin, hconds, hjt, hcmp,
          probesLeftIndex, amendedLeftFires]
    · by_cases hnull : c.null_values_are_equal = true
      · simp [CreatePlan, hconds, hcmp, hnull, probesLeftIndex, amendedLeftFires]
      · by_cases hne : c.comparison = ExpressionType.COMPARE_NOTEQUAL
        · simp [CreatePlan, hconds, hcmp, hnull, hne, probesLeftIndex,
            amendedLeftFires]
        · simp [CreatePlan, hconds, hcmp, hnull, hne, probesLeftIndex,
            amendedLeftFires]
  · have hlen : ((c :: c2 :: rest).length == 1) = false := by
      simp [List.length_cons]
    simp only [CreatePlan, TransformIndexJoin, hconds]
    split
    · simp [probesLeftIndex, amendedLeftFires, hconds, hlen]
    · split
      · simp [probesLeftIndex, amendedLeftFires, hconds, hlen]
      · split
        · simp [probesLeftIndex, amendedLeftFires, hconds, hlen]
        · simp [probesLeftIndex, amendedLeftFires, hconds, hlen]

/-- The planner yields an index join probing the right table's index
exactly when the amended right-side production condition holds. -/
theorem probesRight_char (context : ClientContext) (transaction : Transaction)
    (op : LogicalComparisonJoin) (lhs_cardinality rhs_cardinality : Nat)
    (left right : PhysicalOperator) :
    probesRightIndex
        (CreatePlan context transaction op lhs_cardinality rhs_cardinality left right)
      = amendedRightFires context transaction op lhs_cardinality rhs_cardinality
          left right := by
  rcases hconds : op.conditions with _ | ⟨c, _ | ⟨c2, rest⟩⟩
  · simp [CreatePlan, hconds, amendedRightFires, probesRightIndex]
  · by_cases hcmp : (c.comparison == ExpressionType.COMPARE_EQUAL) = true
    · by_cases hjt : (op.join_type == JoinType.INNER) = true
      · cases hli : scanSideIndex transaction left c.left.alias_name with
        | some ix =>
          cases htest : (context.force_index_join
              || decide (100 * rhs_cardinality < lhs_cardinality)) with
          | true =>
            simp [CreatePlan, TransformIndexJoin, hconds, hjt, hcmp, hli, htest,
              probesRightIndex, amendedRightFires, amendedLeftFires,
              headLeftAlias, headRightAlias, ← scanSideIndex_isSome]
          | false =>
            cases hri : scanSideIndex transaction right c.right.alias_name with
            | some iy =>
              cases htest2 : (context.force_index_join
                  || decide (100 * lhs_cardinality < rhs_cardinality)) with
              | true =>
                simp [CreatePlan, TransformIndexJoin, hconds, hjt, hcmp, hli, hri,
                  htest, htest2, probesRightIndex, amendedRightFires,
                  amendedLeftFires, headLeftAlias, headRightAlias,
                  ← scanSideIndex_isSome]
              | false =>
                simp [CreatePlan, TransformIndexJoin, hconds, hjt, hcmp, hli, hri,
                  htest, htest2, probesRightIndex, amendedRightFires,
                  amendedLeftFires, headLeftAlias, headRightAlias,
                  ← scanSideIndex_isSome]
            | none =>
              simp [CreatePlan, TransformIndexJoin, hconds, hjt, hcmp, hli, hri,
                htest, probesRightIndex, amendedRightFires, amendedLeftFires,
                headLeftAlias, headRightAlias, ← scanSideIndex_isSome]
        | none =>
          cases hri : scanSideIndex transaction right c.right.alias_name with
          | some iy =>
            cases htest2 : (context.force_index_join
                || decide (100 * lhs_cardinality < rhs_cardinality)) with
            | true =>
              simp [CreatePlan, TransformIndexJoin, hconds, hjt, hcmp, hli, hri,
                htest2, probesRightIndex, amendedRightFires, amendedLeftFires,
                headLeftAlias, headRightAlias, ← scanSideIndex_isSome]
            | false =>
              simp [CreatePlan, TransformIndexJoin, hconds, hjt, hcmp, hli, hri,
                htest2, probesRightIndex, amendedRightFires, amendedLeftFires,
                headLeftAlias, headRightAlias, ← scanSideIndex_isSome]
          | none =>
            simp [CreatePlan, TransformIndexJoin, hconds, hjt, hcmp, hli, hri,
              probesRightIndex, amendedRightFires, amendedLeftFires,
              headLeftAlias, headRightAlias, ← scanSideIndex_isSome]
      · simp [CreatePlan, TransformIndexJoin, hconds, hjt, hcmp,
          probesRightIndex, amendedRightFires]
    · by_cases hnull : c.null_values_are_equal = true
      · simp [CreatePlan, hconds, hcmp, hnull, probesRightIndex, amendedRightFires]
      · by_cases hne : c.comparison = ExpressionType.COMPARE_NOTEQUAL
        · simp [CreatePlan, hconds, hcmp, hnull, hne, probesRightIndex,
            amendedRightFires]
        · simp [CreatePlan, hconds, hcmp, hnull, hne, probesRightIndex,
            amendedRightFires]
  · have hlen : ((c :: c2 :: rest).length == 1) = false := by
      simp [List.length_cons]
    simp only [CreatePlan, TransformIndexJoin, hconds]
    split
    · simp [probesRightIndex, amendedRightFires, hconds, hlen]
    · split
      · simp [probesRightIndex, amendedRightFires, hconds, hlen]
      · split
        · simp [probesRightIndex, amendedRightFires, hconds, hlen]
        · simp [probesRightIndex, amendedRightFires, hconds, hlen]

/-- When the left side has a usable index, the single condition is an
equality, and the force-or-ratio test passes, the result is the
left-probing index join with driving right child, swapped condition and
swapped projection maps. -/
theorem CreatePlan_left_index_join (context : ClientContext)
    (transaction : Transaction) (op : LogicalComparisonJoin)
    (lhs_cardinality rhs_cardinality : Nat) (left right : PhysicalOperator)
    (ix : Index)
    (hli : (TransformIndexJoin transaction op left right).1 = some ix)
    (hcmp : op.conditions.all
        (fun c => c.comparison == ExpressionType.COMPARE_EQUAL) = true)
    (htest : (context.force_index_join
        || decide (100 * rhs_cardinality < lhs_cardinality)) = true) :
    CreatePlan context transaction op lhs_cardinality rhs_cardinality left right
      = .ok (.indexJoin right left (swapFirstCondition op.conditions) op.join_type
          op.right_projection_map op.left_projection_map left.scanColumnIds
          ix false) := by
  rcases hconds : op.conditions with _ | ⟨c, _ | ⟨c2, rest⟩⟩
  · simp [TransformIndexJoin, hconds] at hli
  · rw [hconds] at hcmp
    simp only [List.all_cons, List.all_nil, Bool.and_true] at hcmp
    by_cases hjt : (op.join_type == JoinType.INNER) = true
    · simp only [TransformIndexJoin, hconds, hjt, if_pos] at hli
      simp [CreatePlan, TransformIndexJoin, hconds, hjt, hcmp, hli, htest]
    · simp [TransformIndexJoin, hconds, hjt] at hli
  · simp [TransformIndexJoin, hconds] at hli

/-! ### Claim theorems -/

/-- C1: the claim says a single inner equality condition with
`null_values_are_equal = true` forces `HashJoin` and never `IndexJoin`.
The code contradicts this (and its own comment restricting null-aware
conditions to hash joins): at a node whose only condition is the
null-aware equality `A.x = B.y`, with `A` a filterless bare scan carrying
an index on `x`, no transaction-local storage, `card(A) = 1000000` and
`card(B) = 100`, `CreatePlan` returns the left-probing `IndexJoin`, not a
`HashJoin`. -/
theorem c1_null_aware_equality_still_index_join :
    CreatePlan ctxNoForce txnEmpty opNullAwareEq 1000000 100 scanA (.other 2)
        = .ok (.indexJoin (.other 2) scanA (swapFirstCondition [condEqNullAware])
            JoinType.INNER [1] [0] [0, 1] idxAx false)
      ∧ probesLeftIndex (CreatePlan ctxNoForce txnEmpty opNullAwareEq 1000000 100
          scanA (.other 2)) = true :=
  ⟨rfl, rfl⟩

/-- C2 counterexample: the claimed per-side iff fails in both directions.
Left: with a null-aware single equality condition the left-probing
`IndexJoin` is produced although the claimed conjunction (which requires
`null_values_are_equal = false`) is false. Right: with both sides
eligible and the force flag set, the claimed conjunction holds for the
right side, yet no right-probing `IndexJoin` is produced (the left side
wins). -/
theorem c2_production_iff_counterexample :
    (probesLeftIndex (CreatePlan ctxNoForce txnEmpty opNullAwareEq 1000000 100
          scanA (.other 2)) = true
      ∧ claimC2Conjuncts ctxNoForce txnEmpty opNullAwareEq 1000000 100 scanA
          ("x") = false)
    ∧ (claimC2Conjuncts ctxForce txnEmpty opSingleEq 100 100 scanB ("y") = true
      ∧ probesRightIndex (CreatePlan ctxForce txnEmpty opSingleEq 100 100
          scanA scanB) = false) :=
  ⟨⟨rfl, rfl⟩, ⟨rfl, rfl⟩⟩

/-- C2 (amended): an `IndexJoin` probing the left side is produced iff
exactly one condition, equality, inner join, the left plan is a
filterless bare table scan of a table with no transaction-local storage
and an index whose first-column alias matches the condition's left
operand alias, and force-or-ratio holds; the right side symmetrically,
plus the requirement that the left-side branch did not fire. The
`null_values_are_equal` flag is not consulted. -/
theorem c2_index_join_production_characterization (context : ClientContext)
    (transaction : Transaction) (op : LogicalComparisonJoin)
    (lhs_cardinality rhs_cardinality : Nat) (left right : PhysicalOperator) :
    probesLeftIndex
        (CreatePlan context transaction op lhs_cardinality rhs_cardinality left right)
      = amendedLeftFires context transaction op lhs_cardinality rhs_cardinality left
    ∧ probesRightIndex
        (CreatePlan context transaction op lhs_cardinality rhs_cardinality left right)
      = amendedRightFires context transaction op lhs_cardinality rhs_cardinality
          left right :=
  ⟨probesLeft_char context transaction op lhs_cardinality rhs_cardinality left right,
   probesRight_char context transaction op lhs_cardinality rhs_cardinality left right⟩

/-- C3: when the left side is index-join eligible (the transformation
finds an index for it and the single condition is an equality) and the
force flag is set or the right cardinality is below 1% of the left
cardinality, the result is an `IndexJoin` probing the left table's found
index, with the right subplan as the driving input placed first, the
condition's operands swapped, and the two projection maps swapped. -/
theorem c3_left_index_join_shape (context : ClientContext)
    (transaction : Transaction) (op : LogicalComparisonJoin)
    (lhs_cardinality rhs_cardinality : Nat) (left right : PhysicalOperator)
    (ix : Index)
    (hli : (TransformIndexJoin transaction op left right).1 = some ix)
    (hcmp : op.conditions.all
        (fun c => c.comparison == ExpressionType.COMPARE_EQUAL) = true)
    (htest : (context.force_index_join
        || decide (100 * rhs_cardinality < lhs_cardinality)) = true) :
    CreatePlan context transaction op lhs_cardinality rhs_cardinality left right
      = .ok (.indexJoin right left (swapFirstCondition op.conditions) op.join_type
          op.right_projection_map op.left_projection_map left.scanColumnIds
          ix false) :=
  CreatePlan_left_index_join context transaction op lhs_cardinality rhs_cardinality
    left right ix hli hcmp htest

/-- C3 witness: `A.x = B.y`, `A` a filterless indexed scan, no local
storage, `card(A) = 1000000`, `card(B) = 100`. -/
theorem c3_left_index_join_shape_witness :
    CreatePlan ctxNoForce txnEmpty opSingleEq 1000000 100 scanA (.other 2)
      = .ok (.indexJoin (.other 2) scanA (swapFirstCondition opSingleEq.conditions)
          opSingleEq.join_type opSingleEq.right_projection_map
          opSingleEq.left_projection_map scanA.scanColumnIds idxAx false) :=
  c3_left_index_join_shape ctxNoForce txnEmpty opSingleEq 1000000 100 scanA
    (.other 2) idxAx rfl rfl rfl

/-- C4: when both sides have a usable index and the left side also
passes the force-or-ratio test, the left table's index is taken
unconditionally: the result is exactly the left-probing `IndexJoin`
(which never mentions the right side's index or cardinality), and no
right-probing `IndexJoin` is produced. -/
theorem c4_left_precedence (context : ClientContext)
    (transaction : Transaction) (op : LogicalComparisonJoin)
    (lhs_cardinality rhs_cardinality : Nat) (left right : PhysicalOperator)
    (li ri : Index)
    (hli : (TransformIndexJoin transaction op left right).1 = some li)
    (hri : (TransformIndexJoin transaction op left right).2 = some ri)
    (hcmp : op.conditions.all
        (fun c => c.comparison == ExpressionType.COMPARE_EQUAL) = true)
    (htest : (context.force_index_join
        || decide (100 * rhs_cardinality < lhs_cardinality)) = true) :
    CreatePlan context transaction op lhs_cardinality rhs_cardinality left right
      = .ok (.indexJoin right left (swapFirstCondition op.conditions) op.join_type
          op.right_projection_map op.left_projection_map left.scanColumnIds
          li false)
    ∧ probesRightIndex
        (CreatePlan context transaction op lhs_cardinality rhs_cardinality
          left right) = false := by
  have h := CreatePlan_left_index_join context transaction op lhs_cardinality
    rhs_cardinality left right li hli hcmp htest
  exact ⟨h, by rw [h]; rfl⟩

/-- C4 witness: both `A` and `B` are filterless indexed scans, force flag
set. -/
theorem c4_left_precedence_witness :
    (CreatePlan ctxForce txnEmpty opSingleEq 100 100 scanA scanB
        = .ok (.indexJoin scanB scanA (swapFirstCondition opSingleEq.conditions)
            opSingleEq.join_type opSingleEq.right_projection_map
            opSingleEq.left_projection_map scanA.scanColumnIds idxAx false))
    ∧ probesRightIndex (CreatePlan ctxForce txnEmpty opSingleEq 100 100
        scanA scanB) = false :=
  c4_left_precedence ctxForce txnEmpty opSingleEq 100 100 scanA scanB idxAx idxBy
    rfl rfl rfl rfl

/-- C5: a condition with `null_values_are_equal = true` and a
non-equality comparator makes plan construction abort with a fatal
internal error (the failed assertion), returning no physical operator. -/
theorem c5_null_aware_non_equality_aborts (context : ClientContext)
    (transaction : Transaction) (op : LogicalComparisonJoin)
    (lhs_cardinality rhs_cardinality : Nat) (left right : PhysicalOperator)
    (c : JoinCondition) (hc : c ∈ op.conditions)
    (hn : c.null_values_are_equal = true)
    (hne : c.comparison ≠ ExpressionType.COMPARE_EQUAL) :
    CreatePlan context transaction op lhs_cardinality rhs_cardinality left right
      = .error .assertionFailure := by
  have hlen : (op.conditions.length == 0) = false := by
    cases hcs : op.conditions with
    | nil => rw [hcs] at hc; exact absurd hc (List.not_mem_nil c)
    | cons a as => simp [hcs]
  have habort : op.conditions.any
      (fun c => c.null_values_are_equal
        && !(c.comparison == ExpressionType.COMPARE_EQUAL)) = true := by
    rw [List.any_eq_true]
    exact ⟨c, hc, by simp [hn, hne]⟩
  simp [CreatePlan, hlen, habort]

/-- C5 witness: `A.x < B.y` with `null_values_are_equal = true`. -/
theorem c5_null_aware_non_equality_aborts_witness :
    CreatePlan ctxNoForce txnEmpty opLessNullAware 10 10 scanA scanB
      = .error .assertionFailure :=
  c5_null_aware_non_equality_aborts ctxNoForce txnEmpty opLessNullAware 10 10
    scanA scanB condLessNullAware (by simp [opLessNullAware]) rfl (by decide)

/-- C6: a join node with an empty condition list is lowered to a
`CrossProduct`, whatever the join kind, cardinalities or indexes. -/
theorem c6_no_conditions_cross_product (context : ClientContext)
    (transaction : Transaction) (op : LogicalComparisonJoin)
    (lhs_cardinality rhs_cardinality : Nat) (left right : PhysicalOperator)
    (h : op.conditions = []) :
    CreatePlan context transaction op lhs_cardinality rhs_cardinality left right
      = .ok (.crossProduct left right) := by
  simp [CreatePlan, h]

/-- C6 witness: an outer join with no conditions over two indexed scans. -/
theorem c6_no_conditions_cross_product_witness :
    CreatePlan ctxForce txnEmpty opNoConds 5 5 scanA scanB
      = .ok (.crossProduct scanA scanB) :=
  c6_no_conditions_cross_product ctxForce txnEmpty opNoConds 5 5 scanA scanB rfl

/-- C7: with at least one equality condition, every null-aware condition
an equality (well-formed node), and neither side's index short-circuit
firing, the result is a `HashJoin` whose condition list and both
projection maps are exactly those of the logical node. -/
theorem c7_hash_join_preserves_conditions (context : ClientContext)
    (transaction : Transaction) (op : LogicalComparisonJoin)
    (lhs_cardinality rhs_cardinality : Nat) (left right : PhysicalOperator)
    (hwf : op.conditions.all (fun c =>
        !c.null_values_are_equal
          || (c.comparison == ExpressionType.COMPARE_EQUAL)) = true)
    (heq : op.conditions.any
        (fun c => c.comparison == ExpressionType.COMPARE_EQUAL) = true)
    (hleft : ((TransformIndexJoin transaction op left right).1.isSome
        && (context.force_index_join
          || decide (100 * rhs_cardinality < lhs_cardinality))) = false)
    (hright : ((TransformIndexJoin transaction op left right).2.isSome
        && (context.force_index_join
          || decide (100 * lhs_cardinality < rhs_cardinality))) = false) :
    CreatePlan context transaction op lhs_cardinality rhs_cardinality left right
      = .ok (.hashJoin left right op.conditions op.join_type
          op.left_projection_map op.right_projection_map) := by
  have hlen : (op.conditions.length == 0) = false := by
    cases hcs : op.conditions with
    | nil => rw [hcs] at heq; simp at heq
    | cons a as => simp [hcs]
  have habort : op.conditions.any
      (fun c => c.null_values_are_equal
        && !(c.comparison == ExpressionType.COMPARE_EQUAL)) = false := by
    rw [Bool.eq_false_iff]
    intro hab
    rw [List.any_eq_true] at hab
    obtain ⟨x, hx, hpx⟩ := hab
    have hx2 := List.all_eq_true.mp hwf x hx
    rw [Bool.and_eq_true] at hpx
    rw [Bool.or_eq_true] at hx2
    rcases hx2 with h1 | h2
    · rw [hpx.1] at h1
      exact absurd h1 (by decide)
    · have h3 := hpx.2
      rw [h2] at h3
      exact absurd h3 (by decide)
  cases h1 : (TransformIndexJoin transaction op left right).1 with
  | some ix =>
    have ht1 : (context.force_index_join
        || decide (100 * rhs_cardinality < lhs_cardinality)) = false := by
      rw [h1] at hleft
      simpa using hleft
    cases h2 : (TransformIndexJoin transaction op left right).2 with
    | some iy =>
      have ht2 : (context.force_index_join
          || decide (100 * lhs_cardinality < rhs_cardinality)) = false := by
        rw [h2] at hright
        simpa using hright
      simp [CreatePlan, hlen, habort, heq, h1, h2, ht1, ht2]
    | none => simp [CreatePlan, hlen, habort, heq, h1, h2, ht1]
  | none =>
    cases h2 : (TransformIndexJoin transaction op left right).2 with
    | some iy =>
      have ht2 : (context.force_index_join
          || decide (100 * lhs_cardinality < rhs_cardinality)) = false := by
        rw [h2] at hright
        simpa using hright
      simp [CreatePlan, hlen, habort, heq, h1, h2, ht2]
    | none => simp [CreatePlan, hlen, habort, heq, h1, h2]

/-- C7 witness: `A.x = B.y` over two non-scan children (no index is ever
found), equal cardinalities. -/
theorem c7_hash_join_preserves_conditions_witness :
    CreatePlan ctxNoForce txnEmpty opSingleEq 100 100 (.other 1) (.other 2)
      = .ok (.hashJoin (.other 1) (.other 2) opSingleEq.conditions
          opSingleEq.join_type opSingleEq.left_projection_map
          opSingleEq.right_projection_map) :=
  c7_hash_join_preserves_conditions ctxNoForce txnEmpty opSingleEq 100 100
    (.other 1) (.other 2) rfl rfl rfl rfl

/-- C8 counterexample: the claim says a single non-equality condition
always yields `MergeJoin`, but on a single `COMPARE_NOTEQUAL` condition
the code takes the `has_inequality` branch and yields `NestedLoopJoin`. -/
theorem c8_single_notequal_counterexample :
    CreatePlan ctxNoForce txnEmpty opNotEq 10 10 (.other 1) (.other 2)
        = .ok (.nestedLoopJoin (.other 1) (.other 2) [condNotEq] JoinType.INNER)
      ∧ isMergeJoin (CreatePlan ctxNoForce txnEmpty opNotEq 10 10
          (.other 1) (.other 2)) = false :=
  ⟨rfl, rfl⟩

/-- C8 (amended): a join node with exactly one condition whose comparator
is neither equality nor not-equal, and whose `null_values_are_equal` flag
is false, is lowered to a `MergeJoin`. -/
theorem c8_single_range_condition_merge_join (context : ClientContext)
    (transaction : Transaction) (op : LogicalComparisonJoin)
    (lhs_cardinality rhs_cardinality : Nat) (left right : PhysicalOperator)
    (c : JoinCondition) (hconds : op.conditions = [c])
    (hne : (c.comparison == ExpressionType.COMPARE_EQUAL) = false)
    (hnne : (c.comparison == ExpressionType.COMPARE_NOTEQUAL) = false)
    (hnull : c.null_values_are_equal = false) :
    CreatePlan context transaction op lhs_cardinality rhs_cardinality left right
      = .ok (.piecewiseMergeJoin left right op.conditions op.join_type) := by
  simp [CreatePlan, hconds, hne, hnne, hnull]

/-- C8 witness: the single range condition `A.x < B.y`. -/
theorem c8_single_range_condition_merge_join_witness :
    CreatePlan ctxNoForce txnEmpty opLess 10 10 (.other 1) (.other 2)
      = .ok (.piecewiseMergeJoin (.other 1) (.other 2) opLess.conditions
          opLess.join_type) :=
  c8_single_range_condition_merge_join ctxNoForce txnEmpty opLess 10 10
    (.other 1) (.other 2) condLess rfl rfl rfl rfl

/-- C9: for every operator the planner returns, re-extracting its
condition list and reversing the documented swap (done only in the
left-probing index-join case) gives back exactly the logical node's
condition list: same count, order, and per-side column identity. -/
theorem c9_condition_round_trip (context : ClientContext)
    (transaction : Transaction) (op : LogicalComparisonJoin)
    (lhs_cardinality rhs_cardinality : Nat) (left right : PhysicalOperator)
    (p : PhysicalOperator)
    (h : CreatePlan context transaction op lhs_cardinality rhs_cardinality
        left right = .ok p) :
    reverseDocumentedSwap p = op.conditions := by
  simp only [CreatePlan] at h
  split at h
  · rename_i hempty
    injection h with h2
    subst h2
    have hnil : op.conditions = [] := by
      rw [beq_iff_eq] at hempty
      exact List.length_eq_zero.mp hempty
    simp [reverseDocumentedSwap, extractedConditions, hnil]
  · split at h
    · exact absurd h (by simp)
    · split at h
      · split at h
        · injection h with h2
          subst h2
          simp [reverseDocumentedSwap, swapFirstCondition_involutive]
        · split at h
          · injection h with h2
            subst h2
            simp [reverseDocumentedSwap, extractedConditions]
          · injection h with h2
            subst h2
            simp [reverseDocumentedSwap, extractedConditions]
      · split at h
        · injection h with h2
          subst h2
          simp [reverseDocumentedSwap, extractedConditions]
        · injection h with h2
          subst h2
          simp [reverseDocumentedSwap, extractedConditions]

/-- C9 witness: round trip through the left-probing index join produced
for `A.x = B.y` with an eligible left scan. -/
theorem c9_condition_round_trip_witness :
    reverseDocumentedSwap (.indexJoin (.other 2) scanA
        (swapFirstCondition opSingleEq.conditions) opSingleEq.join_type
        opSingleEq.right_projection_map opSingleEq.left_projection_map
        scanA.scanColumnIds idxAx false) = opSingleEq.conditions :=
  c9_condition_round_trip ctxNoForce txnEmpty opSingleEq 1000000 100 scanA
    (.other 2) _ rfl

/-- C10: the index search compares only the alias of each index's first
bound column against the alias of the condition's operand on that side,
taking the first match in list order: the left-side search result equals
`find?` over first-column aliases keyed by the left operand's alias, and
any transformation of the index list that preserves first-column aliases
(e.g. changing later columns or non-alias identity) commutes with the
search. -/
theorem c10_index_search_first_alias_only (transaction : Transaction)
    (op : LogicalComparisonJoin) (left right : PhysicalOperator)
    (bd : TableScanBindData) (cids : List Nat) (c : JoinCondition)
    (g : Index → Index) (idxs : List Index) (a : String)
    (hconds : op.conditions = [c])
    (hjt : op.join_type = JoinType.INNER)
    (hleft : left = .tableScan (some bd) [] cids)
    (hlocal : transaction.storageFind bd.table.storage_id = false)
    (hg : ∀ ix, (g ix).firstColAlias = ix.firstColAlias) :
    (TransformIndexJoin transaction op left right).1
        = bd.table.info.indexes.find?
            (fun ix => ix.firstColAlias == c.left.alias_name)
      ∧ findMatchingIndex (idxs.map g) a = (findMatchingIndex idxs a).map g := by
  constructor
  · subst hleft
    simp [TransformIndexJoin, hconds, hjt, scanSideIndex, can_plan_index_join,
      hlocal, findMatchingIndex_eq_find]
  · induction idxs with
    | nil => rfl
    | cons ix rest ih =>
      rw [List.map_cons, findMatchingIndex, findMatchingIndex, hg]
      cases hh : (ix.firstColAlias == a) with
      | true => simp [hh]
      | false => simp [hh, ih]

/-- C10 witness: searching the mapped two-column index `idxAxz` behaves
as searching the original, with the trailing column dropped. -/
theorem c10_index_search_first_alias_only_witness :
    (TransformIndexJoin txnEmpty opSingleEq scanA (.other 2)).1
        = tableA.info.indexes.find?
            (fun ix => ix.firstColAlias == condEqPlain.left.alias_name)
      ∧ findMatchingIndex ([idxAxz].map dropTailColumns) "x"
        = (findMatchingIndex [idxAxz] "x").map dropTailColumns :=
  c10_index_search_first_alias_only txnEmpty opSingleEq scanA (.other 2)
    { table := tableA } [0, 1] condEqPlain dropTailColumns [idxAxz] "x"
    rfl rfl rfl rfl dropTailColumns_firstColAlias

end duckdb
